import Mathlib

/-!
Shallow embedding of `src/watcher.js` (pekora-watcher), the discovery-and-
tracking core: the existence prober `checkAccount`, the bootstrap binary
search `binarySearchLatest`, the cache persistence `loadCache`/`saveCache`,
the forward-polling batch of `continuousPolling`, and the startup
reconciliation of `initializeWatcher`.

Modelling conventions:
- JS numbers used as ids are integer-valued throughout the watcher, so ids
  and search bounds are `Int`; `Math.floor((low + high) / 2)` is `Int`
  floor division, which is `(low + high) / 2` on `Int` in Lean (E-rounding).
- The remote HTTP resource is an oracle: an `HttpOutcome` per request,
  threaded as an explicit argument (`net : Int → HttpOutcome` assigns each
  probed id the outcome of its single request).
- Axios with a `validateStatus` whitelist resolves for whitelisted statuses
  and rejects otherwise (with the response status attached), or rejects
  with no response on timeout / connection failure; `axiosGet` models that.
- JS truthiness on the string fields (`a || b` falls through on `''` and
  on a missing field) is `jsOrStr`; a missing-or-falsy payload is
  `Option Payload` with `none`.
- The cache file holds the JSON serialization of the account; the store is
  modelled at the JSON-value level (`Option Json` is the file content,
  parsed), `JSON.stringify` as `encodeAccount`, and reading the parsed
  value back into an account record as `decodeAccount`.
-/

namespace PekoraWatcher

/-- Payload of a successful user lookup, as consumed by the watcher:
`checkAccount` only reads the `Username`/`username` fields (capitalized
first, lowercase fallback). Fields are optional strings; `none` models a
missing field. -/
structure Payload where
  Username : Option String
  username : Option String
deriving Repr, DecidableEq

/-- Account record built by `checkAccount`: `{ id, username, data }` in the
source. -/
structure Account where
  id : Int
  username : String
  data : Payload
deriving Repr, DecidableEq

/-- JS `a || b` on an optional string field: falls through to `b` when the
field is missing or falsy (the empty string). -/
def jsOrStr (v : Option String) (fallback : String) : String :=
  match v with
  | some s => if s = "" then fallback else s
  | none => fallback

/-- Outcome of the single HTTP request a probe issues: either an HTTP reply
with a status code and a (possibly missing/falsy) payload, or no reply at
all (timeout or connection failure). -/
inductive HttpOutcome
  | reply (status : Nat) (data : Option Payload)
  | networkFailure
deriving Repr, DecidableEq

/-- The `validateStatus` whitelist of `checkAccount`'s axios call:
`status === 200 || status === 404 || status === 401 || status === 400`. -/
def validateStatus (status : Nat) : Bool :=
  status == 200 || status == 404 || status == 401 || status == 400

/-- Rejection of the axios promise: an error carrying the response status
(`error.response.status`) when a reply arrived but failed `validateStatus`,
or an error with no response (timeout / connection failure). -/
inductive AxiosError
  | badStatus (status : Nat)
  | network
deriving Repr, DecidableEq

/-- Axios `get` under `checkAccount`'s `validateStatus`: a reply with a
whitelisted status resolves to `(status, data)`; any other reply rejects
with `badStatus`; a network failure rejects with `network`. -/
def axiosGet (outcome : HttpOutcome) : Except AxiosError (Nat × Option Payload) :=
  match outcome with
  | .reply status data =>
      if validateStatus status then .ok (status, data) else .error (.badStatus status)
  | .networkFailure => .error .network

/-- The existence prober `checkAccount(id)` of `src/watcher.js`, as a
function of the outcome of its one HTTP request. On a resolved response:
status 200 with truthy data yields the account record (id from the
argument, username via the `Username || username || 'Unknown'` fallback,
`data` the raw payload); any other resolved status yields `null`. In the
catch block: an error whose response status is 404/401/400 yields `null`,
and every other error (network failure included) is logged and also yields
`null`. The function never throws. -/
def checkAccount (id : Int) (outcome : HttpOutcome) : Option Account :=
  match axiosGet outcome with
  | .ok (status, data) =>
      if status == 200 then
        match data with
        | some payload =>
            some { id := id
                   username := jsOrStr payload.Username (jsOrStr payload.username "Unknown")
                   data := payload }
        | none => none
      else none
  | .error e =>
      match e with
      | .badStatus s => if s == 404 || s == 401 || s == 400 then none else none
      | .network => none

/-- Probe function induced by a network oracle: what `checkAccount(id)`
returns when the request for `id` gets outcome `net id`. -/
def probeWith (net : Int → HttpOutcome) (id : Int) : Option Account :=
  checkAccount id (net id)

/-- The `while (low <= high)` loop of `binarySearchLatest`, with the loop
variables as arguments: probes `mid = Math.floor((low + high) / 2)`; on an
account, records `mid` as `latestFound` and continues with `low = mid + 1`;
otherwise continues with `high = mid - 1`; exits returning `latestFound`
when `low > high`. -/
def binarySearchGo (probe : Int → Option Account) (low high latestFound : Int) : Int :=
  if _h : low ≤ high then
    let mid := (low + high) / 2
    if (probe mid).isSome then
      binarySearchGo probe (mid + 1) high mid
    else
      binarySearchGo probe low (mid - 1) latestFound
  else
    latestFound
termination_by (high + 1 - low).toNat
decreasing_by
  · omega
  · omega

/-- Function `binarySearchLatest(low, high)` of `src/watcher.js`: runs the loop with
`latestFound` seeded to `low`. -/
def binarySearchLatest (probe : Int → Option Account) (low high : Int) : Int :=
  binarySearchGo probe low high low

/-- Number of probes (iterations) the `binarySearchLatest` loop performs:
the same recursion as `binarySearchGo`, counting one per probed `mid`. -/
def binarySearchProbeCount (probe : Int → Option Account) (low high : Int) : Nat :=
  if _h : low ≤ high then
    let mid := (low + high) / 2
    if (probe mid).isSome then
      binarySearchProbeCount probe (mid + 1) high + 1
    else
      binarySearchProbeCount probe low (mid - 1) + 1
  else
    0
termination_by (high + 1 - low).toNat
decreasing_by
  · omega
  · omega

/-! ## Binary search: helper lemmas -/

/-- Loop invariant proof for the bootstrap search: over a probe that is
monotone with threshold `T` on the current interval, the loop returns `T`.
Invariant: `low ≤ T + 1`, `T ≤ high`, and `latestFound = T` as soon as
`low = T + 1`. -/
theorem binarySearchGo_finds (probe : Int → Option Account) (T : Int) :
    ∀ low high latestFound,
      (∀ id, low ≤ id → id ≤ high → ((probe id).isSome = true ↔ id ≤ T)) →
      low ≤ T + 1 → T ≤ high → (low = T + 1 → latestFound = T) →
      binarySearchGo probe low high latestFound = T := by
  intro low high latestFound
  induction low, high, latestFound using binarySearchGo.induct probe
  case case1 low high latestFound hle mid hfound ih =>
    intro hmono hlow hhigh hlf
    have hmidlo : low ≤ mid := by omega
    have hmidhi : mid ≤ high := by omega
    have hmidT : mid ≤ T := (hmono mid hmidlo hmidhi).mp hfound
    rw [binarySearchGo]
    simp only [dif_pos hle, hfound, if_pos]
    exact ih (fun id h1 h2 => hmono id (by omega) h2) (by omega) hhigh (by omega)
  case case2 low high latestFound hle mid hfound ih =>
    intro hmono hlow hhigh hlf
    have hmidlo : low ≤ mid := by omega
    have hmidhi : mid ≤ high := by omega
    have hmidT : T < mid := by
      by_contra h
      push_neg at h
      have := (hmono mid hmidlo hmidhi).mpr h
      rw [this] at hfound
      exact hfound rfl
    rw [binarySearchGo]
    simp only [dif_pos hle, if_neg hfound]
    exact ih (fun id h1 h2 => hmono id h1 (by omega)) hlow (by omega) hlf
  case case3 low high latestFound hgt =>
    intro hmono hlow hhigh hlf
    rw [binarySearchGo]
    simp only [dif_neg hgt]
    omega

/-- An already-empty interval performs no probe. -/
theorem binarySearchProbeCount_exit (probe : Int → Option Account) (low high : Int)
    (h : high < low) : binarySearchProbeCount probe low high = 0 := by
  rw [binarySearchProbeCount]
  simp only [dif_neg (by omega : ¬ low ≤ high)]

/-- Probe-count bound for the bootstrap loop: each iteration at least
halves the interval `[low, high]`, so the loop performs at most
`log2 (high - low + 1) + 1` probes (over any probe function). -/
theorem binarySearchProbeCount_le (probe : Int → Option Account) :
    ∀ low high, binarySearchProbeCount probe low high ≤
      Nat.log 2 ((high + 1 - low).toNat) + 1 := by
  intro low high
  induction low, high using binarySearchProbeCount.induct probe
  case case1 low high hle mid hfound ih =>
    have hmid : mid = (low + high) / 2 := rfl
    rw [binarySearchProbeCount]
    simp only [dif_pos hle, if_pos hfound]
    rw [← hmid]
    by_cases hz : high < mid + 1
    · rw [binarySearchProbeCount_exit probe _ _ hz]
      omega
    · push_neg at hz
      have hn1 : (high + 1 - (mid + 1)).toNat ≤ (high + 1 - low).toNat / 2 := by omega
      have hn2 : 2 ≤ (high + 1 - low).toNat := by omega
      have hlog1 : Nat.log 2 ((high + 1 - (mid + 1)).toNat) ≤
          Nat.log 2 ((high + 1 - low).toNat / 2) := Nat.log_mono_right hn1
      have hlog2 : Nat.log 2 ((high + 1 - low).toNat / 2) =
          Nat.log 2 ((high + 1 - low).toNat) - 1 := Nat.log_div_base _ _
      have hpos : 0 < Nat.log 2 ((high + 1 - low).toNat) := Nat.log_pos (by omega) hn2
      omega
  case case2 low high hle mid hfound ih =>
    have hmid : mid = (low + high) / 2 := rfl
    rw [binarySearchProbeCount]
    simp only [dif_pos hle, if_neg hfound]
    rw [← hmid]
    by_cases hz : mid - 1 < low
    · rw [binarySearchProbeCount_exit probe _ _ hz]
      omega
    · push_neg at hz
      have hn1 : (mid - 1 + 1 - low).toNat ≤ (high + 1 - low).toNat / 2 := by omega
      have hn2 : 2 ≤ (high + 1 - low).toNat := by omega
      have hlog1 : Nat.log 2 ((mid - 1 + 1 - low).toNat) ≤
          Nat.log 2 ((high + 1 - low).toNat / 2) := Nat.log_mono_right hn1
      have hlog2 : Nat.log 2 ((high + 1 - low).toNat / 2) =
          Nat.log 2 ((high + 1 - low).toNat) - 1 := Nat.log_div_base _ _
      have hpos : 0 < Nat.log 2 ((high + 1 - low).toNat) := Nat.log_pos (by omega) hn2
      omega
  case case3 low high hgt =>
    rw [binarySearchProbeCount]
    simp only [dif_neg hgt]
    omega

/-! ## Concrete probe functions used by witnesses and counterexamples -/

/-- Probe of a simulated resource where exactly the ids up to `T` exist. -/
def probeThreshold (T : Int) : Int → Option Account :=
  fun id => if id ≤ T then some { id := id, username := "user", data := ⟨none, none⟩ } else none

/-- Network oracle where accounts exist at ids 1 and 3, the request for
id 2 times out, and all other ids answer 404. -/
def timeoutNet : Int → HttpOutcome :=
  fun id =>
    if id = 2 then HttpOutcome.networkFailure
    else if 1 ≤ id ∧ id ≤ 3 then HttpOutcome.reply 200 (some ⟨some "user", none⟩)
    else HttpOutcome.reply 404 none

/-! ## Forward polling (`continuousPolling`) -/

/-- Configuration constants of `src/watcher.js`. -/
def MIN_ID : Int := 1

/-- Upper bound of the default bootstrap range. -/
def MAX_ID : Int := 5000000

/-- Size of the forward-polling window (`IDS_TO_CHECK`). -/
def IDS_TO_CHECK : Nat := 10

/-- Inclusive integer range `[lo, hi]`, as iterated by
`for (let id = startId; id <= endId; id++)`. -/
def intRange (lo hi : Int) : List Int :=
  (List.range (hi + 1 - lo).toNat).map (fun k : Nat => lo + (k : Int))

/-- The batch window of one polling pass: `startId = n + 1` through
`endId = startId + k - 1`, both fixed before the scan begins. -/
def batchWindow (n : Int) (k : Nat) : List Int :=
  intRange (n + 1) (n + 1 + (k : Int) - 1)

/-- Tracker state for one polling pass: the current record (`latestAccount`,
non-null once polling runs) and the cache-file content (the last record
passed to `saveCache`, if any). -/
structure PollState where
  current : Account
  cache : Option Account
deriving Repr, DecidableEq

/-- Body of the `for` loop of `continuousPolling` over the remaining window
ids: each probed id that yields an account immediately replaces
`latestAccount` and is written to the cache; other ids leave the state
unchanged. -/
def pollWindow (probe : Int → Option Account) : List Int → PollState → PollState
  | [], st => st
  | id :: rest, st =>
      match probe id with
      | some account => pollWindow probe rest { current := account, cache := some account }
      | none => pollWindow probe rest st

/-- The successive records installed into `latestAccount` during a scan of
the given ids (the replacement trace of `pollWindow`, in order). -/
def pollReplacements (probe : Int → Option Account) : List Int → List Account
  | [] => []
  | id :: rest =>
      match probe id with
      | some account => account :: pollReplacements probe rest
      | none => pollReplacements probe rest

/-- One full batch pass of `continuousPolling`: the window is computed once
from the current record's id, then scanned in increasing order. -/
def pollBatch (probe : Int → Option Account) (st : PollState) : PollState :=
  pollWindow probe (batchWindow st.current.id IDS_TO_CHECK) st

/-! ## Cache persistence (`loadCache` / `saveCache`) -/

/-- JSON values, as far as the cache file needs them. -/
inductive Json
  | null
  | str (s : String)
  | num (n : Int)
  | obj (fields : List (String × Json))
deriving Repr

/-- String content of a JSON value, when it is a string. -/
def Json.getStr : Json → Option String
  | .str s => some s
  | _ => none

/-- Integer content of a JSON value, when it is a number. -/
def Json.getNum : Json → Option Int
  | .num n => some n
  | _ => none

/-- JSON serialization of the payload: one field per present attribute. -/
def encodePayload (p : Payload) : Json :=
  Json.obj
    ((match p.Username with
      | some u => [("Username", Json.str u)]
      | none => []) ++
     (match p.username with
      | some u => [("username", Json.str u)]
      | none => []))

/-- Reading a payload back from its JSON value. -/
def decodePayload (j : Json) : Option Payload :=
  match j with
  | .obj fields =>
      some { Username := (fields.lookup "Username").bind Json.getStr
             username := (fields.lookup "username").bind Json.getStr }
  | _ => none

/-- Serialization `JSON.stringify(account)`: the JSON value written by `saveCache`. -/
def encodeAccount (a : Account) : Json :=
  Json.obj
    [("id", Json.num a.id),
     ("username", Json.str a.username),
     ("data", encodePayload a.data)]

/-- Reading the parsed cache file back into an account record. -/
def decodeAccount (j : Json) : Option Account :=
  match j with
  | .obj fields =>
      match (fields.lookup "id").bind Json.getNum with
      | some id =>
          match (fields.lookup "username").bind Json.getStr with
          | some username =>
              match (fields.lookup "data").bind decodePayload with
              | some data => some { id := id, username := username, data := data }
              | none => none
          | none => none
      | none => none
  | _ => none

/-- Function `loadCache()` of `src/watcher.js` over the store content: a missing
file yields `null` (no error); otherwise the file's JSON is parsed and
returned as the cached record (any failure is caught and yields `null`). -/
def loadCache (store : Option Json) : Option Account :=
  match store with
  | none => none
  | some j => decodeAccount j

/-- Function `saveCache(account)`: overwrites the cache file with the account's
JSON serialization. -/
def saveCache (account : Account) : Option Json :=
  some (encodeAccount account)

/-! ## Startup reconciliation (`initializeWatcher`) -/

/-- Result of the startup phase: the current record adopted from the
verified cache (bootstrap skipped), or established by a bootstrap search,
or a scheduled retry of the whole startup after a delay when even the
searched id did not resolve. -/
inductive InitOutcome
  | adoptedCache (account : Account)
  | bootstrapped (account : Account)
  | retry
deriving Repr, DecidableEq

/-- Bootstrap phase over an id range: `binarySearchLatest(low, high)`
followed by one confirming probe of the returned id; on an account the
record is adopted (and saved), otherwise the startup is retried later. -/
def bootstrapFromRange (probe : Int → Option Account) (low high : Int) : InitOutcome :=
  match probe (binarySearchLatest probe low high) with
  | some account => InitOutcome.bootstrapped account
  | none => InitOutcome.retry

/-- The startup logic of `initializeWatcher` of `src/watcher.js`: load the
cache; if a record is present, verify it with one probe of its id — on an
account the cached record itself stays adopted and the bootstrap is
skipped; on `null` the cached record is discarded. With no (surviving)
record, bootstrap over the full default range `[MIN_ID, MAX_ID]`. -/
def initWatcher (probe : Int → Option Account) (store : Option Json) : InitOutcome :=
  match loadCache store with
  | some cached =>
      match probe cached.id with
      | some _ => InitOutcome.adoptedCache cached
      | none => bootstrapFromRange probe MIN_ID MAX_ID
  | none => bootstrapFromRange probe MIN_ID MAX_ID

/-! ## Polling: helper lemmas -/

theorem mem_batchWindow {n : Int} {k : Nat} {i : Int} (h : i ∈ batchWindow n k) :
    n + 1 ≤ i ∧ i ≤ n + (k : Int) := by
  rw [batchWindow, intRange, List.mem_map] at h
  obtain ⟨j, hj, hji⟩ := h
  rw [List.mem_range] at hj
  omega

theorem batchWindow_pairwise (n : Int) (k : Nat) :
    List.Pairwise (· < ·) (batchWindow n k) := by
  rw [batchWindow, intRange]
  refine List.Pairwise.map _ (fun a b hab => ?_) (List.pairwise_lt_range _)
  omega

theorem pollWindow_current_mono (probe : Int → Option Account)
    (hidm : ∀ i a, probe i = some a → a.id = i) :
    ∀ (l : List Int) (st : PollState), List.Pairwise (· < ·) l →
      (∀ i ∈ l, st.current.id < i) →
      st.current.id ≤ (pollWindow probe l st).current.id := by
  intro l
  induction l with
  | nil => intro st _ _; exact le_refl _
  | cons id rest ih =>
    intro st hpw hgt
    rw [pollWindow]
    cases hp : probe id with
    | some a =>
      simp only [hp]
      have haid : a.id = id := hidm id a hp
      have h1 : st.current.id < id := hgt id (List.mem_cons_self _ _)
      have h2 : ∀ i ∈ rest, a.id < i := by
        intro i hi
        rw [haid]
        exact (List.pairwise_cons.mp hpw).1 i hi
      have h3 := ih { current := a, cache := some a } (List.pairwise_cons.mp hpw).2 h2
      have h4 : ({ current := a, cache := some a } : PollState).current.id = a.id := rfl
      omega
    | none =>
      simp only [hp]
      exact ih st (List.pairwise_cons.mp hpw).2
        (fun i hi => hgt i (List.mem_cons_of_mem _ hi))

theorem pollReplacements_chain (probe : Int → Option Account)
    (hidm : ∀ i a, probe i = some a → a.id = i) :
    ∀ (l : List Int) (c : Account), List.Pairwise (· < ·) l →
      (∀ i ∈ l, c.id < i) →
      List.Chain' (fun a b : Account => a.id < b.id)
        (c :: pollReplacements probe l) := by
  intro l
  induction l with
  | nil => intro c _ _; simp [pollReplacements]
  | cons id rest ih =>
    intro c hpw hgt
    rw [pollReplacements]
    cases hp : probe id with
    | some a =>
      simp only [hp]
      have haid : a.id = id := hidm id a hp
      rw [List.chain'_cons]
      refine ⟨by rw [haid]; exact hgt id (List.mem_cons_self _ _), ?_⟩
      refine ih a (List.pairwise_cons.mp hpw).2 ?_
      intro i hi
      rw [haid]
      exact (List.pairwise_cons.mp hpw).1 i hi
    | none =>
      simp only [hp]
      exact ih c (List.pairwise_cons.mp hpw).2
        (fun i hi => hgt i (List.mem_cons_of_mem _ hi))

theorem pollBatch_mono (probe : Int → Option Account)
    (hidm : ∀ i a, probe i = some a → a.id = i) (st : PollState) :
    st.current.id ≤ (pollBatch probe st).current.id := by
  refine pollWindow_current_mono probe hidm _ st (batchWindow_pairwise _ _) ?_
  intro i hi
  have := mem_batchWindow hi
  omega

theorem pollLoop_mono (probe : Int → Option Account)
    (hidm : ∀ i a, probe i = some a → a.id = i) (st : PollState) :
    ∀ n : Nat, st.current.id ≤ ((pollBatch probe)^[n] st).current.id := by
  intro n
  induction n with
  | zero => simp
  | succ m ih =>
    rw [Function.iterate_succ_apply']
    exact le_trans ih (pollBatch_mono probe hidm _)

/-- The window of one batch over `IDS_TO_CHECK = 10` ids, listed. -/
theorem batchWindow_ten (n : Int) :
    batchWindow n 10 =
      [n + 1, n + 2, n + 3, n + 4, n + 5, n + 6, n + 7, n + 8, n + 9, n + 10] := by
  have h : (n + 1 + ((10 : Nat) : Int) - 1 + 1 - (n + 1)).toNat = 10 := by omega
  rw [batchWindow, intRange, h]
  simp [List.range_succ]
  constructor <;> omega

/-! ## Further concrete functions for witnesses -/

/-- Network oracle of a simulated resource where exactly ids `x` and `y`
exist (success replies there, 404 everywhere else). -/
def pairNet (x y : Int) : Int → HttpOutcome :=
  fun i => if i = x ∨ i = y then HttpOutcome.reply 200 (some ⟨some "user", none⟩)
           else HttpOutcome.reply 404 none

/-- Shape of every `checkAccount` result: `null`, or a record whose `id`
field is stamped from the argument (never taken from the payload). -/
theorem checkAccount_shape (id : Int) (outcome : HttpOutcome) :
    checkAccount id outcome = none ∨
    ∃ a, checkAccount id outcome = some a ∧ a.id = id := by
  cases outcome with
  | networkFailure => exact Or.inl rfl
  | reply status data =>
    by_cases hv : validateStatus status = true
    · by_cases h2 : (status == 200) = true
      · cases data with
        | some p =>
          right
          refine ⟨{ id := id,
                    username := jsOrStr p.Username (jsOrStr p.username "Unknown"),
                    data := p }, ?_, rfl⟩
          simp [checkAccount, axiosGet, hv, h2]
        | none =>
          exact Or.inl (by simp [checkAccount, axiosGet, hv, h2])
      · exact Or.inl (by simp [checkAccount, axiosGet, hv, h2])
    · exact Or.inl (by simp [checkAccount, axiosGet, hv])

/-- Every record `checkAccount` returns carries the probed id. -/
theorem checkAccount_id_stamp (id : Int) (outcome : HttpOutcome) (a : Account) :
    checkAccount id outcome = some a → a.id = id := by
  intro h
  rcases checkAccount_shape id outcome with hnone | ⟨b, hb, hbid⟩
  · rw [hnone] at h
    exact Option.noConfusion h
  · rw [hb] at h
    injection h with h
    rw [← h]
    exact hbid

/-- Records delivered by probing through any network oracle carry the
probed id. -/
theorem probeWith_id (net : Int → HttpOutcome) (i : Int) (a : Account) :
    probeWith net i = some a → a.id = i :=
  checkAccount_id_stamp i (net i) a

/-! ## Claim theorems -/

/-- C1 (code_bug evidence). The code has no Indeterminate outcome: a probe
that ends in a network timeout / connection failure returns `null`, the
very value that encodes definitive absence (`checkAccount` returns `null`
for a 404 reply as well), and `binarySearchLatest` moves its boundary on
it. Concretely, over `timeoutNet` (accounts exist at ids 1 and 3, the
request for id 2 times out), the bootstrap search over `[1, 3]` probes
id 2, treats the timeout as absence, sets `high = 1`, and converges to 1
even though id 3 exists — the timeout moved the binary-search boundary
and was taken as proof of absence, contradicting the claim. -/
theorem timeout_treated_as_absent_moves_boundary :
    checkAccount 2 HttpOutcome.networkFailure = none ∧
    checkAccount 2 HttpOutcome.networkFailure = checkAccount 2 (HttpOutcome.reply 404 none) ∧
    (probeWith timeoutNet 3).isSome = true ∧
    binarySearchLatest (probeWith timeoutNet) 1 3 = 1 := by
  refine ⟨rfl, rfl, rfl, ?_⟩
  have e1 : probeWith timeoutNet 2 = none := rfl
  have e2 : (probeWith timeoutNet 1).isSome = true := rfl
  rw [binarySearchLatest]
  rw [binarySearchGo]
  norm_num [e1]
  rw [binarySearchGo]
  norm_num [e2]
  rw [binarySearchGo]
  norm_num

/-- C2. For all bounds `low ≤ high` and an existence predicate monotone on
`[low, high]` with threshold `T` in range (the probe finds an account at
`id` exactly when `id ≤ T`), `binarySearchLatest(low, high)` returns
exactly `T`. -/
theorem binarySearchLatest_monotone_threshold (probe : Int → Option Account)
    (low high T : Int) (hlowT : low ≤ T) (hThigh : T ≤ high)
    (hmono : ∀ id, low ≤ id → id ≤ high → ((probe id).isSome = true ↔ id ≤ T)) :
    binarySearchLatest probe low high = T :=
  binarySearchGo_finds probe T low high low hmono (by omega) hThigh (by omega)

/-- Witness for C2: over ids existing up to 5, the search on `[1, 9]`
returns 5. -/
theorem binarySearchLatest_monotone_threshold_witness :
    binarySearchLatest (probeThreshold 5) 1 9 = 5 := by
  refine binarySearchLatest_monotone_threshold (probeThreshold 5) 1 9 5 (by decide) (by decide) ?_
  intro id h1 h2
  by_cases h : id ≤ 5 <;> simp [probeThreshold, h]

/-- C6. The bootstrap loop exits as soon as `low > high`, returning the
current `latestFound`, and performs at most `log2 (high - low + 1) + 1`
probes in total (the interval at least halves on every iteration). -/
theorem binarySearch_terminates_log_probes (probe : Int → Option Account)
    (low high latestFound : Int) :
    (high < low → binarySearchGo probe low high latestFound = latestFound) ∧
    binarySearchProbeCount probe low high ≤ Nat.log 2 ((high + 1 - low).toNat) + 1 := by
  constructor
  · intro h
    rw [binarySearchGo]
    simp only [dif_neg (by omega : ¬ low ≤ high)]
  · exact binarySearchProbeCount_le probe low high

/-- Witness for C6: an empty interval returns `latestFound` with no probe,
and the probe count over `[1, 9]` meets the logarithmic bound. -/
theorem binarySearch_terminates_log_probes_witness :
    binarySearchGo (probeThreshold 5) 9 3 7 = 7 ∧
    binarySearchProbeCount (probeThreshold 5) 1 9 ≤
      Nat.log 2 (((9 : Int) + 1 - 1).toNat) + 1 :=
  ⟨(binarySearch_terminates_log_probes (probeThreshold 5) 9 3 7).1 (by decide),
   (binarySearch_terminates_log_probes (probeThreshold 5) 1 9 7).2⟩

/-- C3. One full forward-polling batch from a current record at id `N`
scans the window fixed at batch start — exactly the ids `N+1 .. N+10`, in
increasing order — replacing and persisting the current record on each
account found; when exactly `N+3` and `N+7` exist in the window, the pass
ends with the record found at `N+7` as current (and cached), whose id is
`N+7`. -/
theorem pollBatch_advances_to_highest_found (net : Int → HttpOutcome)
    (st : PollState) (N : Int) (a3 a7 : Account)
    (hN : st.current.id = N)
    (hp3 : probeWith net (N + 3) = some a3)
    (hp7 : probeWith net (N + 7) = some a7)
    (hothers : ∀ i, i ∈ batchWindow N IDS_TO_CHECK → i ≠ N + 3 → i ≠ N + 7 →
      probeWith net i = none) :
    batchWindow N IDS_TO_CHECK =
      [N + 1, N + 2, N + 3, N + 4, N + 5, N + 6, N + 7, N + 8, N + 9, N + 10] ∧
    pollBatch (probeWith net) st = { current := a7, cache := some a7 } ∧ a7.id = N + 7 := by
  set probe := probeWith net with hprobe
  have hwin : batchWindow N IDS_TO_CHECK =
      [N + 1, N + 2, N + 3, N + 4, N + 5, N + 6, N + 7, N + 8, N + 9, N + 10] := by
    rw [IDS_TO_CHECK, batchWindow_ten]
  have hmem : ∀ i, i ∈ batchWindow N IDS_TO_CHECK ↔
      i ∈ [N + 1, N + 2, N + 3, N + 4, N + 5, N + 6, N + 7, N + 8, N + 9, N + 10] := by
    intro i; rw [hwin]
  have h1 : probe (N + 1) = none := hothers _ ((hmem _).mpr (by simp)) (by omega) (by omega)
  have h2 : probe (N + 2) = none := hothers _ ((hmem _).mpr (by simp)) (by omega) (by omega)
  have h4 : probe (N + 4) = none := hothers _ ((hmem _).mpr (by simp)) (by omega) (by omega)
  have h5 : probe (N + 5) = none := hothers _ ((hmem _).mpr (by simp)) (by omega) (by omega)
  have h6 : probe (N + 6) = none := hothers _ ((hmem _).mpr (by simp)) (by omega) (by omega)
  have h8 : probe (N + 8) = none := hothers _ ((hmem _).mpr (by simp)) (by omega) (by omega)
  have h9 : probe (N + 9) = none := hothers _ ((hmem _).mpr (by simp)) (by omega) (by omega)
  have h10 : probe (N + 10) = none := hothers _ ((hmem _).mpr (by simp)) (by omega) (by omega)
  refine ⟨hwin, ?_, probeWith_id net _ _ hp7⟩
  rw [pollBatch, hN, hwin]
  simp [pollWindow, h1, h2, hp3, h4, h5, h6, hp7, h8, h9, h10]

/-- Witness for C3: current record at id 100, accounts existing exactly at
103 and 107 in the window — one batch pass ends at the account with
id 107, persisted. -/
theorem pollBatch_advances_to_highest_found_witness :
    pollBatch (probeWith (pairNet 103 107)) ⟨⟨100, "u", ⟨none, none⟩⟩, none⟩ =
      { current := ⟨107, "user", ⟨some "user", none⟩⟩,
        cache := some ⟨107, "user", ⟨some "user", none⟩⟩ } :=
  (pollBatch_advances_to_highest_found (pairNet 103 107)
    ⟨⟨100, "u", ⟨none, none⟩⟩, none⟩ 100
    ⟨103, "user", ⟨some "user", none⟩⟩ ⟨107, "user", ⟨some "user", none⟩⟩
    rfl (by decide) (by decide) (by decide)).2.1

/-- C4. Replacements of the current record are strictly increasing in id:
over any network oracle, the chain of records `checkAccount` installs
during one batch strictly increases from the current record's id, and
across any number of batches the current id never decreases. -/
theorem pollCurrent_strictly_increasing (net : Int → HttpOutcome) (st : PollState) :
    List.Chain' (fun a b : Account => a.id < b.id)
      (st.current ::
        pollReplacements (probeWith net) (batchWindow st.current.id IDS_TO_CHECK)) ∧
    ∀ n : Nat, st.current.id ≤ ((pollBatch (probeWith net))^[n] st).current.id := by
  constructor
  · refine pollReplacements_chain (probeWith net) (probeWith_id net) _ st.current
      (batchWindow_pairwise _ _) ?_
    intro i hi
    have := mem_batchWindow hi
    omega
  · exact pollLoop_mono (probeWith net) (probeWith_id net) st

/-- C5. Startup reconciliation: when the cache loads a record, it is
confirmed with one probe of its id — an account adopts the cached record
as current and skips the bootstrap, while `null` discards the cache and
triggers the full bootstrap over the default range `[1, 5000000]`. -/
theorem initWatcher_cache_reconciliation (probe : Int → Option Account)
    (store : Option Json) (cached : Account)
    (hload : loadCache store = some cached) :
    ((probe cached.id).isSome = true →
      initWatcher probe store = InitOutcome.adoptedCache cached) ∧
    (probe cached.id = none →
      initWatcher probe store = bootstrapFromRange probe 1 5000000) := by
  constructor
  · intro hfound
    cases hp : probe cached.id with
    | some a =>
      unfold initWatcher
      rw [hload]
      simp only [hp]
    | none => rw [hp] at hfound; simp at hfound
  · intro habs
    unfold initWatcher
    rw [hload]
    simp only [habs]
    rfl

/-- Witness for C5: a record saved at id 5 then loaded is adopted when the
probe confirms it, and the same store falls to the full-range bootstrap
when every probe answers `null`. -/
theorem initWatcher_cache_reconciliation_witness :
    initWatcher (probeThreshold 5) (saveCache ⟨5, "user", ⟨none, none⟩⟩) =
      InitOutcome.adoptedCache ⟨5, "user", ⟨none, none⟩⟩ ∧
    initWatcher (fun _ => none) (saveCache ⟨5, "user", ⟨none, none⟩⟩) =
      bootstrapFromRange (fun _ => none) 1 5000000 := by
  constructor
  · exact (initWatcher_cache_reconciliation (probeThreshold 5) _ _ (by rfl)).1 (by rfl)
  · exact (initWatcher_cache_reconciliation (fun _ => none) _ _ (by rfl)).2 rfl

/-- C7. Persistence round-trip: saving any account record with `saveCache`
and loading the resulting store with `loadCache` yields an equal record,
and loading with no cache file present yields the no-cached-record value
(`none`), not an error. -/
theorem cache_round_trip (a : Account) :
    loadCache (saveCache a) = some a ∧ loadCache none = none := by
  refine ⟨?_, rfl⟩
  obtain ⟨id, username, pU, pu⟩ := a
  cases pU <;> cases pu <;> rfl

/-- C8. A probe whose remote outcome is a 404, 401 or 400 reply returns the
absence verdict `null` — with no account record — regardless of any reply
body. -/
theorem checkAccount_definitive_absence (id : Int) (data : Option Payload) :
    checkAccount id (HttpOutcome.reply 404 data) = none ∧
    checkAccount id (HttpOutcome.reply 401 data) = none ∧
    checkAccount id (HttpOutcome.reply 400 data) = none :=
  ⟨rfl, rfl, rfl⟩

/-- C9. On a successful probe with a payload, the record's display name is
the capitalized `Username` field when present (JS-truthy, i.e. non-empty),
else the lowercase `username` field when present, else the placeholder
`"Unknown"` — the `Username || username || 'Unknown'` fallback chain. -/
theorem checkAccount_username_fallback (id : Int) (p : Payload) :
    ∃ a, checkAccount id (HttpOutcome.reply 200 (some p)) = some a ∧
      (∀ u, p.Username = some u → u ≠ "" → a.username = u) ∧
      ((p.Username = none ∨ p.Username = some "") →
        ∀ u, p.username = some u → u ≠ "" → a.username = u) ∧
      ((p.Username = none ∨ p.Username = some "") →
        (p.username = none ∨ p.username = some "") → a.username = "Unknown") := by
  refine ⟨_, rfl, ?_, ?_, ?_⟩
  · intro u hu hne
    simp [jsOrStr, hu, hne]
  · rintro (h | h) u hu hne <;> simp [jsOrStr, h, hu, hne]
  · rintro (h | h) (h2 | h2) <;> simp [jsOrStr, h, h2]

/-- Witness for C9: a payload with no capitalized field and lowercase name
`"bob"` yields the record name `"bob"`. -/
theorem checkAccount_username_fallback_witness :
    ∃ a, checkAccount 7 (HttpOutcome.reply 200 (some ⟨none, some "bob"⟩)) = some a ∧
      a.username = "bob" := by
  obtain ⟨a, ha, h1, h2, h3⟩ := checkAccount_username_fallback 7 ⟨none, some "bob"⟩
  exact ⟨a, ha, h2 (Or.inl rfl) "bob" rfl (by decide)⟩

/-- C10. The prober is total at its interface: for every id and every
remote behaviour it returns `null` or a record, never an exception, and
every record it returns carries the probed id (the id field comes from the
argument, not from the payload). -/
theorem checkAccount_total_returns_probed_id (id : Int) (outcome : HttpOutcome) :
    checkAccount id outcome = none ∨
    ∃ a, checkAccount id outcome = some a ∧ a.id = id :=
  checkAccount_shape id outcome
